import Mathlib

/-!
Verification of the training-configuration core of `classifier.py`
(`ImageClassifier`) together with the backbone registry contract.

The embedding follows the source:

* `torch.nn.Module` trees, as traversed by `ImageClassifier.configure_optimizers`
  for parameter grouping, become the inductive type `Module`: each module has a
  kind (is it one of the normalization classes `_BatchNorm`, `LayerNorm`,
  `GroupNorm`?), a list of directly-owned parameters, and child modules.
* learning-rate schedulers (`CosineAnnealingLR`, `LinearLR`, `SequentialLR`)
  become the inductive `Sched`; their learning-rate multiplier as a function of
  the step count is `Sched.factor`.  The cosine multiplier is real-valued
  (`(1 + cos (π t / T_max)) / 2`), so it is kept abstract as a function
  argument `cosFactor : ℤ → ℕ → ℚ`; every theorem about schedule composition
  is proved for all interpretations of it.
* `ImageClassifier.__init__` becomes `imageClassifierInit`, and the pieces of
  `training_step` / `validation_step` that the claims are about become
  `trainingStepLoss`, `validationStepLoss` and `valAccuracy`.
-/

namespace VisionBackbones

/-- A `torch.nn.Parameter`: an identifier plus its `requires_grad` flag. -/
structure Param where
  pid : Nat
  requires_grad : Bool
deriving DecidableEq, Repr

/-- The classification of a module's type that `configure_optimizers` performs:
`isinstance(module, (nn.modules.batchnorm._BatchNorm, nn.LayerNorm, nn.GroupNorm))`. -/
inductive ModKind where
  | batchNorm
  | layerNorm
  | groupNorm
  | plain
deriving DecidableEq, Repr

/-- A `torch.nn.Module` tree: its kind, its directly-owned parameters
(`parameters(recurse=False)`), and its child modules (`children()`). -/
inductive Module where
  | mk (kind : ModKind) (own : List Param) (children : List Module)
deriving Repr

/-- The module's kind. -/
def Module.kind : Module → ModKind
  | .mk k _ _ => k

/-- `module.parameters(recurse=False)`: the directly-owned parameters. -/
def Module.own : Module → List Param
  | .mk _ o _ => o

/-- `module.children()`: the immediate child modules. -/
def Module.children : Module → List Module
  | .mk _ _ c => c

mutual
/-- `module.parameters()` (recursive): own parameters, then descendants',
in traversal order. -/
def Module.allParams : Module → List Param
  | .mk _ own children => own ++ allParamsList children

/-- The recursive parameters of a list of sibling modules, in order. -/
def allParamsList : List Module → List Param
  | [] => []
  | m :: ms => Module.allParams m ++ allParamsList ms
end

mutual
/-- `module.modules()`: the module itself followed by all submodules,
depth-first pre-order. -/
def Module.allModules : Module → List Module
  | .mk k own children => .mk k own children :: allModulesList children

/-- The submodules of a list of sibling modules, pre-order, in order. -/
def allModulesList : List Module → List Module
  | [] => []
  | m :: ms => Module.allModules m ++ allModulesList ms
end

/-- `isinstance(module, norm_classes)` for
`norm_classes = (nn.modules.batchnorm._BatchNorm, nn.LayerNorm, nn.GroupNorm)`. -/
def isNormKind : ModKind → Bool
  | .batchNorm => true
  | .layerNorm => true
  | .groupNorm => true
  | .plain => false

/-- `[p for p in ps if p.requires_grad]`. -/
def gradParams (ps : List Param) : List Param :=
  ps.filter (fun p => p.requires_grad)

/-- One iteration of the grouping loop in `configure_optimizers`
(lines 143–149): the accumulator is the pair `(norm_params, other_params)`.
`next(module.children(), None)` is truthy exactly when the module has a child. -/
def groupStep (acc : List Param × List Param) (m : Module) : List Param × List Param :=
  if !m.children.isEmpty then
    (acc.1, acc.2 ++ gradParams m.own)
  else if isNormKind m.kind then
    (acc.1 ++ gradParams m.allParams, acc.2)
  else
    (acc.1, acc.2 ++ gradParams m.allParams)

/-- The whole grouping loop: fold `groupStep` over `self.modules()`. -/
def paramGroups (root : Module) : List Param × List Param :=
  root.allModules.foldl groupStep ([], [])

/-- What the optimizer is handed: either the flat `self.parameters()` or a
list of `{"params": ..., "weight_decay": ...}` groups. -/
inductive OptimizerParams where
  | flat (ps : List Param)
  | groups (gs : List (List Param × ℚ))
deriving Repr

/-- Lines 137–156 of `configure_optimizers`: if `norm_weight_decay is not None`,
build the two groups and keep only the non-empty ones (`if p`); otherwise pass
`self.parameters()` unpartitioned. -/
def configure_parameters (norm_weight_decay : Option ℚ) (weight_decay : ℚ)
    (root : Module) : OptimizerParams :=
  match norm_weight_decay with
  | some nwd =>
      let pg := paramGroups root
      .groups (([(pg.1, nwd), (pg.2, weight_decay)]).filter (fun g => !g.1.isEmpty))
  | none => .flat root.allParams

/-- The parameters a module contributes to `norm_params` in one loop iteration:
nothing when it has children, its gradient-tracking parameters when it is a
childless normalization module, nothing otherwise. -/
def normContrib (m : Module) : List Param :=
  if !m.children.isEmpty then []
  else if isNormKind m.kind then gradParams m.allParams
  else []

/-- The parameters a module contributes to `other_params` in one loop
iteration. -/
def otherContrib (m : Module) : List Param :=
  if !m.children.isEmpty then gradParams m.own
  else if isNormKind m.kind then []
  else gradParams m.allParams

/-! ## Learning-rate schedulers -/

/-- The scheduler objects built by `configure_optimizers`:
`CosineAnnealingLR(T_max)`, `LinearLR(start_factor, total_iters)` and
`SequentialLR(schedulers=[first, second], milestones=[milestone])` (the code
always passes exactly two schedulers and one milestone).  `T_max` is an
integer because the code computes it as `trainer.max_epochs - warmup_epochs`,
a Python int subtraction that may be non-positive. -/
inductive Sched where
  | cosineAnnealingLR (T_max : ℤ)
  | linearLR (start_factor : ℚ) (total_iters : ℕ)
  | sequentialLR2 (first second : Sched) (milestone : ℕ)
deriving DecidableEq, Repr

/-- `LinearLR`'s learning-rate multiplier after `t` steps:
`start_factor + (1 - start_factor) * min(t, total_iters) / total_iters`
(end factor 1.0, PyTorch's closed form). -/
def linearLRfactor (start_factor : ℚ) (total_iters : ℕ) (t : ℕ) : ℚ :=
  start_factor + (1 - start_factor) * ((min t total_iters : ℕ) : ℚ) / (total_iters : ℚ)

/-- The learning-rate multiplier of a scheduler after `t` steps.
`CosineAnnealingLR`'s multiplier `(1 + cos (π t / T_max)) / 2` is real-valued,
so it is taken as an abstract argument `cosFactor T_max t`; theorems hold for
every interpretation.  `SequentialLR` follows PyTorch: scheduler `first` is
active while `t < milestone`; from `t = milestone` on, `second` is active and
is restarted at its own step `0` (`scheduler.step(0)`), so it sees local step
`t - milestone`. -/
def Sched.factor (cosFactor : ℤ → ℕ → ℚ) : Sched → ℕ → ℚ
  | .cosineAnnealingLR T, t => cosFactor T t
  | .linearLR s n, t => linearLRfactor s n t
  | .sequentialLR2 a b m, t => if t < m then a.factor cosFactor t else b.factor cosFactor (t - m)

/-- Lines 160–163 of `configure_optimizers`: build
`CosineAnnealingLR(T_max = max_epochs - warmup_epochs)`; when
`warmup_epochs > 0`, additionally build
`LinearLR(start_factor = warmup_decay, total_iters = warmup_epochs)` and wrap
both as `SequentialLR(schedulers=[lr_scheduler, warmup_scheduler],
milestones=[warmup_epochs])` — note the code places the cosine scheduler
first in the list. -/
def configure_lr_scheduler (max_epochs : ℤ) (warmup_epochs : ℕ) (warmup_decay : ℚ) : Sched :=
  let lr_scheduler := Sched.cosineAnnealingLR (max_epochs - warmup_epochs)
  if warmup_epochs > 0 then
    Sched.sequentialLR2 lr_scheduler (Sched.linearLR warmup_decay warmup_epochs) warmup_epochs
  else
    lr_scheduler

/-- The `T_max` values of the cosine phases inside a scheduler (summed; the
schedulers built by the code contain exactly one cosine phase). -/
def Sched.cosineTMax : Sched → ℤ
  | .cosineAnnealingLR T => T
  | .linearLR _ _ => 0
  | .sequentialLR2 a b _ => a.cosineTMax + b.cosineTMax

/-! ## Construction (`ImageClassifier.__init__`) -/

/-- The constructor arguments of `ImageClassifier` that the claims are about. -/
structure Hparams where
  backbone : String
  num_classes : ℕ
  random_erasing_p : ℚ
  mixup_alpha : ℚ
  cutmix_alpha : ℚ
  optimizer : String
  lr : ℚ
  weight_decay : ℚ
  norm_weight_decay : Option ℚ
  label_smoothing : ℚ
  warmup_epochs : ℕ
  warmup_decay : ℚ
deriving Repr

/-- The failure mode of construction.  `unknownVariant` is the spec's name
(**UnknownVariantError**) for the error raised by the registry lookup
`backbones.__dict__[backbone]` on line 59 when the name is absent. -/
inductive InitError where
  | unknownVariant
deriving DecidableEq, Repr

/-- The state `__init__` leaves behind (the fields the claims mention):
the hyper-parameters and whether the `RandomCutMixMixUp` stage was built. -/
structure ClassifierState where
  hparams : Hparams
  mixup_cutmix_isSome : Bool
deriving Repr

/-- `ImageClassifier.__init__` for a string backbone name.  Modelled from the
spec: the `backbones` registry module (a mapping from string identifiers to
constructors) is not under src, so its contents are abstracted as the list
`registry` of registered names; line 59, `backbones.__dict__[backbone]()`,
fails on an unregistered name before anything else is built.  The rest of
`__init__` performs no validation of any numeric argument; line 80 constructs
the mixup/cutmix stage exactly when `cutmix_alpha > 0 and mixup_alpha > 0`. -/
def imageClassifierInit (registry : List String) (h : Hparams) :
    Except InitError ClassifierState :=
  if h.backbone ∈ registry then
    .ok { hparams := h
          mixup_cutmix_isSome := decide (h.cutmix_alpha > 0) && decide (h.mixup_alpha > 0) }
  else
    .error .unknownVariant

/-- Line 80: `RandomCutMixMixUp(...) if cutmix_alpha > 0 and mixup_alpha > 0
else None`.  The stage itself (from `extras`, external) is abstracted as the
function `mixFn` on image/label batches. -/
def mkMixupCutmix {I L : Type} (mixFn : I × L → I × L) (mixup_alpha cutmix_alpha : ℚ) :
    Option (I × L → I × L) :=
  if cutmix_alpha > 0 ∧ mixup_alpha > 0 then some mixFn else none

/-- Lines 115–116 of `training_step`: apply the mixup/cutmix stage when it was
constructed, otherwise leave images and labels untouched. -/
def trainingStepAugment {I L : Type} (mix : Option (I × L → I × L)) (images : I) (labels : L) :
    I × L :=
  match mix with
  | some f => f (images, labels)
  | none => (images, labels)

/-! ## Step logic -/

/-- A call to `F.cross_entropy`: the logits, the target, and the
`label_smoothing` argument (0 when the keyword is omitted, its PyTorch
default). -/
structure CECall (Lg Tg : Type) where
  logits : Lg
  target : Tg
  label_smoothing : ℚ
deriving Repr

/-- Lines 111–119 of `training_step`: transform the images, apply the
(optional) mixup/cutmix stage, run the forward pass, and call
`F.cross_entropy(logits, labels)` with no `label_smoothing` argument. -/
def trainingStepLoss {I L Lg : Type} (forward : I → Lg) (transforms : I → I)
    (mix : Option (I × L → I × L)) (images : I) (labels : L) : CECall Lg L :=
  let images := transforms images
  let il := trainingStepAugment mix images labels
  { logits := forward il.1, target := il.2, label_smoothing := 0 }

/-- Lines 124–128 of `validation_step`: run the forward pass on the raw batch
and call `F.cross_entropy(logits, labels,
label_smoothing=self.hparams.label_smoothing)` against the hard integer
labels. -/
def validationStepLoss {I Lg : Type} (forward : I → Lg) (label_smoothing : ℚ)
    (images : I) (labels : List ℕ) : CECall Lg (List ℕ) :=
  { logits := forward images, target := labels, label_smoothing := label_smoothing }

/-- `torch.argmax` over a row, ties broken towards the first maximum:
the running best index/value scan. -/
def argmaxGo (bestIdx : ℕ) (bestVal : ℚ) (i : ℕ) : List ℚ → ℕ
  | [] => bestIdx
  | x :: xs => if bestVal < x then argmaxGo i x (i + 1) xs else argmaxGo bestIdx bestVal (i + 1) xs

/-- `torch.argmax(row)` for one row of logits. -/
def torchArgmax : List ℚ → ℕ
  | [] => 0
  | x :: xs => argmaxGo 0 x 1 xs

/-- Lines 131–133 of `validation_step`:
`preds = torch.argmax(logits, dim=-1)`, `correct = (labels == preds).sum()`,
`acc = correct / labels.numel()`. -/
def valAccuracy (logits : List (List ℚ)) (labels : List ℕ) : ℚ :=
  let preds := logits.map torchArgmax
  let correct := (labels.zip preds).countP (fun s => s.1 == s.2)
  (correct : ℚ) / (labels.length : ℚ)

/-- The spec's formula, stated in its own words: top-1 accuracy is the count
of samples whose integer label equals the argmax over their logits, divided
by the batch size. -/
def specTop1Accuracy (logits : List (List ℚ)) (labels : List ℕ) : ℚ :=
  (((labels.zip logits).countP (fun s => s.1 == torchArgmax s.2) : ℕ) : ℚ) /
    (labels.length : ℚ)

/-! ## Helper lemmas -/

theorem allParamsList_eq (ms : List Module) :
    allParamsList ms = ms.flatMap Module.allParams := by
  induction ms with
  | nil => rfl
  | cons m ms ih => simp [allParamsList, ih]

theorem allModulesList_eq (ms : List Module) :
    allModulesList ms = ms.flatMap Module.allModules := by
  induction ms with
  | nil => rfl
  | cons m ms ih => simp [allModulesList, ih]

theorem Module.allParams_mk (k : ModKind) (o : List Param) (cs : List Module) :
    Module.allParams (.mk k o cs) = o ++ cs.flatMap Module.allParams := by
  rw [Module.allParams, allParamsList_eq]

theorem Module.allModules_mk (k : ModKind) (o : List Param) (cs : List Module) :
    Module.allModules (.mk k o cs) = .mk k o cs :: cs.flatMap Module.allModules := by
  rw [Module.allModules, allModulesList_eq]

theorem Module.ind (P : Module → Prop)
    (step : ∀ k o cs, (∀ c ∈ cs, P c) → P (Module.mk k o cs)) (m : Module) : P m := by
  cases m with
  | mk k o cs =>
    apply step
    intro c hc
    exact Module.ind P step c
termination_by m
decreasing_by
  have := List.sizeOf_lt_of_mem hc
  simp only [Module.mk.sizeOf_spec]
  omega

/-- The directly-owned parameters of all modules in the tree, concatenated in
traversal order, are exactly the recursive parameter list. -/
theorem allModules_flatMap_own (m : Module) :
    m.allModules.flatMap Module.own = m.allParams := by
  induction m using Module.ind with
  | step k o cs ih =>
    rw [Module.allModules_mk, Module.allParams_mk]
    simp only [List.flatMap_cons, Module.own, List.flatMap_assoc]
    congr 1
    exact List.flatMap_congr fun c hc => ih c hc

/-- A childless module's recursive parameter list is its own parameter list. -/
theorem Module.allParams_leaf (m : Module) (h : m.children.isEmpty = true) :
    m.allParams = m.own := by
  cases m with
  | mk k o cs =>
    simp only [Module.children, List.isEmpty_iff] at h
    subst h
    simp [Module.allParams_mk, Module.own]

theorem groupStep_eq (acc : List Param × List Param) (m : Module) :
    groupStep acc m = (acc.1 ++ normContrib m, acc.2 ++ otherContrib m) := by
  simp only [groupStep, normContrib, otherContrib]
  split
  · simp
  · split <;> simp

theorem foldl_groupStep (ms : List Module) (acc : List Param × List Param) :
    ms.foldl groupStep acc =
      (acc.1 ++ ms.flatMap normContrib, acc.2 ++ ms.flatMap otherContrib) := by
  induction ms generalizing acc with
  | nil => simp
  | cons m ms ih =>
    rw [List.foldl_cons, groupStep_eq, ih]
    simp [List.append_assoc]

theorem paramGroups_eq (root : Module) :
    paramGroups root =
      (root.allModules.flatMap normContrib, root.allModules.flatMap otherContrib) := by
  rw [paramGroups, foldl_groupStep]
  simp

theorem mem_gradParams {p : Param} {ps : List Param} :
    p ∈ gradParams ps ↔ p ∈ ps ∧ p.requires_grad = true := by
  simp [gradParams, List.mem_filter]

theorem normContrib_eq (m : Module) :
    normContrib m =
      if m.children.isEmpty && isNormKind m.kind then gradParams m.own else [] := by
  simp only [normContrib]
  by_cases h : m.children.isEmpty = true
  · rw [Module.allParams_leaf m h]
    simp [h]
  · simp [h]

theorem contrib_append_eq (m : Module) :
    normContrib m ++ otherContrib m = gradParams m.own := by
  simp only [normContrib, otherContrib]
  by_cases h : m.children.isEmpty = true
  · rw [Module.allParams_leaf m h]
    by_cases hn : isNormKind m.kind = true <;> simp [h, hn]
  · simp [h]

theorem flatMap_append_perm {α β : Type _} (l : List α) (f g : α → List β) :
    ((l.flatMap f) ++ (l.flatMap g)).Perm (l.flatMap (fun x => f x ++ g x)) := by
  induction l with
  | nil => exact List.Perm.refl _
  | cons a l ih =>
    simp only [List.flatMap_cons]
    have h1 : (l.flatMap f ++ (g a ++ l.flatMap g)).Perm
        (g a ++ (l.flatMap f ++ l.flatMap g)) := by
      rw [← List.append_assoc, ← List.append_assoc]
      exact List.perm_append_comm.append_right _
    have h2 := h1.append_left (f a)
    rw [List.append_assoc]
    refine h2.trans ?_
    rw [← List.append_assoc]
    exact ih.append_left _

theorem flatMap_gradParams_own (l : List Module) :
    l.flatMap (fun m => gradParams m.own) = gradParams (l.flatMap Module.own) := by
  induction l with
  | nil => rfl
  | cons m l ih =>
    simp only [List.flatMap_cons, gradParams, List.filter_append] at ih ⊢
    rw [ih]

/-! ## Claim theorems -/

/-- C1: the claim says the linear warmup phase runs first and that stepping
the composed schedule for exactly `warmup_epochs` steps brings the multiplier
from `warmup_decay` up to 1.0.  The code instead passes
`schedulers=[lr_scheduler, warmup_scheduler]` (cosine first) to
`SequentialLR`, so — for any interpretation of the cosine multiplier — with
`max_epochs = 10`, `warmup_epochs = 2`, `warmup_decay = 1/100`, step 0 is
governed by the cosine scheduler (with `T_max = 8`) and the multiplier after
exactly `warmup_epochs = 2` steps is `warmup_decay = 1/100 ≠ 1`: the linear
ramp starts, rather than ends, at `warmup_epochs`. -/
theorem c1_warmup_phase_misordered :
    ∀ cosFactor : ℤ → ℕ → ℚ,
      Sched.factor cosFactor (configure_lr_scheduler 10 2 (1/100)) 2 = 1/100
      ∧ Sched.factor cosFactor (configure_lr_scheduler 10 2 (1/100)) 0 = cosFactor 8 0
      ∧ ((1 : ℚ)/100 ≠ 1) := by
  intro cosFactor
  refine ⟨?_, ?_, by norm_num⟩
  · show Sched.factor cosFactor
      (Sched.sequentialLR2 (.cosineAnnealingLR 8) (.linearLR (1/100) 2) 2) 2 = 1/100
    simp [Sched.factor, linearLRfactor]
  · show Sched.factor cosFactor
      (Sched.sequentialLR2 (.cosineAnnealingLR 8) (.linearLR (1/100) 2) 2) 0 = cosFactor 8 0
    simp [Sched.factor]

/-- C2: with `warmup_epochs = 0` the guard `warmup_epochs > 0` fails, so
`configure_optimizers` returns the bare `CosineAnnealingLR` with
`T_max = max_epochs - 0 = max_epochs`, and its multiplier trajectory at every
step is exactly that of the unwrapped cosine schedule — no warmup phase and
no sequential wrapper. -/
theorem c2_zero_warmup_uses_plain_cosine :
    ∀ (cosFactor : ℤ → ℕ → ℚ) (max_epochs : ℤ) (warmup_decay : ℚ),
      configure_lr_scheduler max_epochs 0 warmup_decay = Sched.cosineAnnealingLR max_epochs
      ∧ ∀ t, Sched.factor cosFactor (configure_lr_scheduler max_epochs 0 warmup_decay) t
            = cosFactor max_epochs t := by
  intro cosFactor me wd
  have h : configure_lr_scheduler me 0 wd = Sched.cosineAnnealingLR me := by
    simp [configure_lr_scheduler]
  exact ⟨h, fun t => by rw [h, Sched.factor]⟩

/-- C3: the mixup/cutmix stage is constructed iff both alphas are strictly
positive, and whenever either alpha is zero or negative, `training_step`
passes its (transformed) images and labels through unchanged. -/
theorem c3_mixup_cutmix_gating :
    ∀ {I L : Type} (mixFn : I × L → I × L) (mixup_alpha cutmix_alpha : ℚ),
      ((mkMixupCutmix mixFn mixup_alpha cutmix_alpha).isSome = true
          ↔ (0 < mixup_alpha ∧ 0 < cutmix_alpha))
      ∧ (mixup_alpha ≤ 0 ∨ cutmix_alpha ≤ 0 →
          ∀ (images : I) (labels : L),
            trainingStepAugment (mkMixupCutmix mixFn mixup_alpha cutmix_alpha) images labels
              = (images, labels)) := by
  intro I L f ma ca
  constructor
  · by_cases h : ca > 0 ∧ ma > 0
    · constructor
      · intro _
        exact ⟨h.2, h.1⟩
      · intro _
        simp [mkMixupCutmix, h]
    · constructor
      · intro hs
        exfalso
        simp [mkMixupCutmix, h] at hs
      · intro hc
        exact absurd ⟨hc.2, hc.1⟩ h
  · intro hle images labels
    have h : ¬(ca > 0 ∧ ma > 0) := by
      rcases hle with h | h
      · exact fun hc => absurd hc.2 (not_lt.2 h)
      · exact fun hc => absurd hc.1 (not_lt.2 h)
    simp [mkMixupCutmix, h, trainingStepAugment]

/-- Witness for C3: with `mixup_alpha = 0`, `cutmix_alpha = 1`, the stage is a
passthrough on a concrete batch. -/
theorem c3_mixup_cutmix_gating_witness :
    ((0 : ℚ) ≤ 0 ∨ (1 : ℚ) ≤ 0)
    ∧ trainingStepAugment
        (mkMixupCutmix (fun p : ℕ × ℕ => (p.1 + 1, p.2 + 1)) 0 1) 5 7 = (5, 7) :=
  ⟨Or.inl le_rfl,
   (c3_mixup_cutmix_gating (fun p : ℕ × ℕ => (p.1 + 1, p.2 + 1)) 0 1).2 (Or.inl le_rfl) 5 7⟩

/-- C5: the optimizer is never handed an empty parameter group.  With
`norm_weight_decay = None` the flat parameter set is passed ungrouped; with
grouping active, every group in the list handed to the optimizer is
non-empty (the `if p` filter drops empty groups). -/
theorem c5_no_empty_param_group :
    (∀ (wd : ℚ) (root : Module),
        configure_parameters none wd root = OptimizerParams.flat root.allParams)
    ∧ (∀ (nwd wd : ℚ) (root : Module) (gs : List (List Param × ℚ)),
        configure_parameters (some nwd) wd root = OptimizerParams.groups gs →
        ∀ g ∈ gs, g.1 ≠ []) := by
  constructor
  · intro wd root
    rfl
  · intro nwd wd root gs hgs g hg
    simp only [configure_parameters] at hgs
    injection hgs with hgs
    subst hgs
    have := (List.mem_filter.1 hg).2
    simpa using this

/-- Witness for C5: a single trainable non-normalization leaf yields an empty
normalization group, which is omitted; the surviving group is non-empty. -/
theorem c5_no_empty_param_group_witness :
    configure_parameters (some 1) 2 (Module.mk .plain [⟨0, true⟩] [])
      = OptimizerParams.groups [([⟨0, true⟩], 2)]
    ∧ ([(⟨0, true⟩ : Param)], (2 : ℚ)).1 ≠ [] :=
  ⟨rfl,
   c5_no_empty_param_group.2 1 2 (Module.mk .plain [⟨0, true⟩] []) [([⟨0, true⟩], 2)] rfl
     ([⟨0, true⟩], 2) (List.mem_singleton.2 rfl)⟩

/-- C6: constructing the classifier with a backbone name outside the registry
fails at construction (the registry lookup on line 59, the first thing
`__init__` does with the name) with the spec's `UnknownVariantError`, before
any state — and hence any forward pass — exists. -/
theorem c6_unknown_backbone_errors :
    ∀ (registry : List String) (h : Hparams),
      h.backbone ∉ registry →
      imageClassifierInit registry h = Except.error InitError.unknownVariant := by
  intro registry h hn
  simp [imageClassifierInit, hn]

/-- Witness for C6: the name "not_a_model" is not registered, so construction
returns `UnknownVariantError`. -/
theorem c6_unknown_backbone_errors_witness :
    "not_a_model" ∉ ["resnet18", "darknet53"]
    ∧ imageClassifierInit ["resnet18", "darknet53"]
        { backbone := "not_a_model", num_classes := 10, random_erasing_p := 1/10,
          mixup_alpha := 1/5, cutmix_alpha := 1, optimizer := "SGD", lr := 1/20,
          weight_decay := 1/50000, norm_weight_decay := some 0, label_smoothing := 1/10,
          warmup_epochs := 5, warmup_decay := 1/100 }
        = Except.error InitError.unknownVariant :=
  ⟨by decide,
   c6_unknown_backbone_errors ["resnet18", "darknet53"]
     { backbone := "not_a_model", num_classes := 10, random_erasing_p := 1/10,
       mixup_alpha := 1/5, cutmix_alpha := 1, optimizer := "SGD", lr := 1/20,
       weight_decay := 1/50000, norm_weight_decay := some 0, label_smoothing := 1/10,
       warmup_epochs := 5, warmup_decay := 1/100 }
     (by decide)⟩

/-- Counterexample for C7: a configuration with `warmup_epochs = 10` and
`total_epochs = 10` (so `warmup_epochs ≥ total_epochs`) does NOT fail at
construction — `__init__` validates nothing and returns a fully-built state —
and `configure_optimizers` then silently builds the cosine phase with
`T_max = 10 - 10 = 0`, i.e. a zero-length cosine phase. -/
theorem c7_no_construction_validation_cex :
    imageClassifierInit ["resnet18"]
      { backbone := "resnet18", num_classes := 10, random_erasing_p := 1/10,
        mixup_alpha := 1/5, cutmix_alpha := 1, optimizer := "SGD", lr := 1/20,
        weight_decay := 1/50000, norm_weight_decay := some 0, label_smoothing := 1/10,
        warmup_epochs := 10, warmup_decay := 1/100 }
      = Except.ok
        { hparams :=
            { backbone := "resnet18", num_classes := 10, random_erasing_p := 1/10,
              mixup_alpha := 1/5, cutmix_alpha := 1, optimizer := "SGD", lr := 1/20,
              weight_decay := 1/50000, norm_weight_decay := some 0, label_smoothing := 1/10,
              warmup_epochs := 10, warmup_decay := 1/100 },
          mixup_cutmix_isSome := true }
    ∧ configure_lr_scheduler 10 10 (1/100)
        = Sched.sequentialLR2 (Sched.cosineAnnealingLR 0) (Sched.linearLR (1/100) 10) 10 := by
  constructor
  · norm_num [imageClassifierInit]
  · norm_num [configure_lr_scheduler]

/-- C7 as amended: construction never validates `warmup_epochs` against
`total_epochs` (which is a trainer property not even available in
`__init__`): any registered-backbone configuration constructs successfully,
and `configure_optimizers` builds the cosine phase with length
`total_epochs - warmup_epochs`, which is ≤ 0 whenever
`warmup_epochs ≥ total_epochs` — the invalid configuration is discovered (if
at all) only when the schedule is used, not at construction. -/
theorem c7_amended_silent_nonpositive_cosine :
    ∀ (registry : List String) (h : Hparams) (max_epochs : ℤ) (wd : ℚ),
      h.backbone ∈ registry →
      max_epochs ≤ (h.warmup_epochs : ℤ) →
      (∃ s, imageClassifierInit registry h = Except.ok s)
      ∧ (configure_lr_scheduler max_epochs h.warmup_epochs wd).cosineTMax
          = max_epochs - (h.warmup_epochs : ℤ)
      ∧ (configure_lr_scheduler max_epochs h.warmup_epochs wd).cosineTMax ≤ 0 := by
  intro registry h me wd hmem hle
  have hok : imageClassifierInit registry h = Except.ok
      { hparams := h,
        mixup_cutmix_isSome := decide (h.cutmix_alpha > 0) && decide (h.mixup_alpha > 0) } := by
    simp [imageClassifierInit, hmem]
  have htm : (configure_lr_scheduler me h.warmup_epochs wd).cosineTMax
      = me - (h.warmup_epochs : ℤ) := by
    by_cases hw : h.warmup_epochs > 0
    · simp [configure_lr_scheduler, hw, Sched.cosineTMax]
    · simp [configure_lr_scheduler, hw, Sched.cosineTMax]
  exact ⟨⟨_, hok⟩, htm, by rw [htm]; omega⟩

/-- Witness for C7's amended claim at `total_epochs = warmup_epochs = 10`. -/
theorem c7_amended_silent_nonpositive_cosine_witness :
    "resnet18" ∈ ["resnet18"]
    ∧ ((10 : ℤ) ≤ ((10 : ℕ) : ℤ))
    ∧ ((∃ s, imageClassifierInit ["resnet18"]
          { backbone := "resnet18", num_classes := 10, random_erasing_p := 1/10,
            mixup_alpha := 1/5, cutmix_alpha := 1, optimizer := "SGD", lr := 1/20,
            weight_decay := 1/50000, norm_weight_decay := some 0, label_smoothing := 1/10,
            warmup_epochs := 10, warmup_decay := 1/100 }
          = Except.ok s)
        ∧ (configure_lr_scheduler 10 10 (1/100)).cosineTMax = 10 - ((10 : ℕ) : ℤ)
        ∧ (configure_lr_scheduler 10 10 (1/100)).cosineTMax ≤ 0) :=
  ⟨by decide, by decide,
   c7_amended_silent_nonpositive_cosine ["resnet18"]
     { backbone := "resnet18", num_classes := 10, random_erasing_p := 1/10,
       mixup_alpha := 1/5, cutmix_alpha := 1, optimizer := "SGD", lr := 1/20,
       weight_decay := 1/50000, norm_weight_decay := some 0, label_smoothing := 1/10,
       warmup_epochs := 10, warmup_decay := 1/100 }
     10 (1/100) (by decide) (by decide)⟩

/-- C4: with grouping active, the normalization group is exactly the
gradient-tracking parameters of childless (leaf) normalization modules, in
traversal order; a parameter owned directly by a module that has children
always lands in the other group, whatever the module's kind; and no parameter
with gradient tracking disabled appears in either group. -/
theorem c4_norm_group_leaf_classification (root : Module) :
    (paramGroups root).1 =
      root.allModules.flatMap
        (fun m => if m.children.isEmpty && isNormKind m.kind then gradParams m.own else [])
    ∧ (∀ m ∈ root.allModules, m.children.isEmpty = false →
        ∀ p ∈ gradParams m.own, p ∈ (paramGroups root).2)
    ∧ (∀ p : Param, p ∈ (paramGroups root).1 ∨ p ∈ (paramGroups root).2 →
        p.requires_grad = true) := by
  rw [paramGroups_eq]
  refine ⟨?_, ?_, ?_⟩
  · exact List.flatMap_congr fun m _ => normContrib_eq m
  · intro m hm hc p hp
    refine List.mem_flatMap.2 ⟨m, hm, ?_⟩
    simpa [otherContrib, hc] using hp
  · have hk : ∀ m : Module, ∀ p : Param,
        p ∈ normContrib m ∨ p ∈ otherContrib m → p.requires_grad = true := by
      intro m p hm
      rcases hm with h | h
      · simp only [normContrib] at h
        split at h
        · simp at h
        · split at h
          · exact (mem_gradParams.1 h).2
          · simp at h
      · simp only [otherContrib] at h
        split at h
        · exact (mem_gradParams.1 h).2
        · split at h
          · simp at h
          · exact (mem_gradParams.1 h).2
    intro p hp
    rcases hp with hp | hp <;> obtain ⟨m, hm, hpm⟩ := List.mem_flatMap.1 hp
    · exact hk m p (Or.inl hpm)
    · exact hk m p (Or.inr hpm)

/-- Witness for C4 on a concrete tree: a composite root owning a trainable
parameter directly, with a batch-norm leaf (one trainable and one frozen
parameter) and a plain leaf; the root's own parameter lands in the other
group, and the norm-group member tracks gradients. -/
theorem c4_norm_group_leaf_classification_witness :
    (⟨0, true⟩ : Param) ∈
      (paramGroups (Module.mk .plain [⟨0, true⟩]
        [Module.mk .batchNorm [⟨1, true⟩, ⟨2, false⟩] [],
         Module.mk .plain [⟨3, true⟩] []])).2 :=
  (c4_norm_group_leaf_classification
      (Module.mk .plain [⟨0, true⟩]
        [Module.mk .batchNorm [⟨1, true⟩, ⟨2, false⟩] [],
         Module.mk .plain [⟨3, true⟩] []])).2.1
    (Module.mk .plain [⟨0, true⟩]
      [Module.mk .batchNorm [⟨1, true⟩, ⟨2, false⟩] [],
       Module.mk .plain [⟨3, true⟩] []])
    (by rw [Module.allModules_mk]; exact List.mem_cons_self _ _)
    rfl ⟨0, true⟩ (by decide)

/-- C10: with grouping active, the two groups together are a permutation of
the gradient-tracking parameters of the whole module tree — every trainable
parameter is collected, from the unique module that owns it, and appears with
the same multiplicity in the groups as in the tree (so none is duplicated or
dropped); in particular the per-parameter occurrence counts agree. -/
theorem c10_grouping_partitions_grad_params (root : Module) :
    ((paramGroups root).1 ++ (paramGroups root).2).Perm (gradParams root.allParams)
    ∧ ∀ p : Param, p.requires_grad = true →
        ((paramGroups root).1 ++ (paramGroups root).2).count p = root.allParams.count p := by
  have hperm : ((paramGroups root).1 ++ (paramGroups root).2).Perm
      (gradParams root.allParams) := by
    rw [paramGroups_eq]
    refine (flatMap_append_perm _ _ _).trans ?_
    have heq : root.allModules.flatMap (fun m => normContrib m ++ otherContrib m)
        = gradParams root.allParams := by
      rw [List.flatMap_congr fun m _ => contrib_append_eq m, flatMap_gradParams_own,
        allModules_flatMap_own]
    rw [heq]
  refine ⟨hperm, fun p hp => ?_⟩
  rw [hperm.count_eq]
  exact List.count_filter (by simpa using hp)

/-- Witness for C10 on a concrete tree: the trainable batch-norm parameter
occurs in the combined groups exactly as often as in the tree. -/
theorem c10_grouping_partitions_grad_params_witness :
    (⟨1, true⟩ : Param).requires_grad = true
    ∧ ((paramGroups (Module.mk .plain [⟨0, true⟩]
          [Module.mk .batchNorm [⟨1, true⟩, ⟨2, false⟩] [],
           Module.mk .plain [⟨3, true⟩] []])).1
        ++ (paramGroups (Module.mk .plain [⟨0, true⟩]
          [Module.mk .batchNorm [⟨1, true⟩, ⟨2, false⟩] [],
           Module.mk .plain [⟨3, true⟩] []])).2).count ⟨1, true⟩
      = (Module.mk .plain [⟨0, true⟩]
          [Module.mk .batchNorm [⟨1, true⟩, ⟨2, false⟩] [],
           Module.mk .plain [⟨3, true⟩] []]).allParams.count ⟨1, true⟩ :=
  ⟨rfl,
   (c10_grouping_partitions_grad_params
      (Module.mk .plain [⟨0, true⟩]
        [Module.mk .batchNorm [⟨1, true⟩, ⟨2, false⟩] [],
         Module.mk .plain [⟨3, true⟩] []])).2 ⟨1, true⟩ rfl⟩

/-- C8: the training step calls `F.cross_entropy(logits, labels)` — the
(possibly mixed-soft) labels, smoothing factor 0 (the omitted-keyword
default) — while the validation step calls `F.cross_entropy(logits, labels,
label_smoothing=self.hparams.label_smoothing)` against the hard integer
labels: smoothing is applied in validation only, never in training. -/
theorem c8_label_smoothing_validation_only :
    ∀ {I L Lg : Type} (forward vforward : I → Lg) (transforms : I → I)
      (mix : Option (I × L → I × L)) (images vimages : I) (labels : L)
      (label_smoothing : ℚ) (vlabels : List ℕ),
      (trainingStepLoss forward transforms mix images labels).label_smoothing = 0
      ∧ (trainingStepLoss forward transforms mix images labels).target
          = (trainingStepAugment mix (transforms images) labels).2
      ∧ (validationStepLoss vforward label_smoothing vimages vlabels).label_smoothing
          = label_smoothing
      ∧ (validationStepLoss vforward label_smoothing vimages vlabels).target = vlabels := by
  intros
  exact ⟨rfl, rfl, rfl, rfl⟩

/-- C9: the validation accuracy computed by the code (argmax per row,
elementwise comparison with the labels, sum, divide by the label count)
equals the spec's formula — the count of samples whose label equals the
argmax of their logits, over the batch size — and on logits `[[2,1],[0,3]]`
with labels `[0,1]` the predictions are `[0,1]` and the accuracy is 1. -/
theorem c9_top1_accuracy :
    (∀ (logits : List (List ℚ)) (labels : List ℕ),
        valAccuracy logits labels = specTop1Accuracy logits labels)
    ∧ List.map torchArgmax [[2, 1], [0, 3]] = [0, 1]
    ∧ valAccuracy [[2, 1], [0, 3]] [0, 1] = 1 := by
  refine ⟨?_, ?_, ?_⟩
  · intro logits labels
    simp only [valAccuracy, specTop1Accuracy]
    rw [List.zip_map_right, List.countP_map]
    rfl
  · norm_num [torchArgmax, argmaxGo]
  · norm_num [valAccuracy, torchArgmax, argmaxGo]

end VisionBackbones
